import Mathlib

/-!
Verification of the development relay server (`frontend/server.py`).

The relay serves static files and forwards requests whose path begins with
the reserved `"/api/"` segment to a backend HTTP service at
`http://localhost:8000`.  This file gives a shallow embedding of the
request-handling code — `ProxyHandler.do_GET`, `do_POST`, `proxy_request`,
`end_headers` — together with the pieces of library behaviour the handler
relies on (the `BaseHTTPRequestHandler` method dispatch, Python `int()`
parsing of the `Content-Length` value, `dict`-backed `add_header` on the
outbound `urllib.request.Request`, UTF-8 decoding with undecodable bytes
dropped, and `json.dumps` of the error payloads), and proves the behavioural
claims about it.

Conventions: byte streams are `List Nat` (each entry one octet), Python
strings are Lean `String`s, header mappings are ordered association lists.
Machine integers do not occur (Python integers are unbounded).
-/

/-! ### Python string primitives

Header names reaching the handler are latin-1 decoded by `http.server`.
Lean's `Char.toLower`/`Char.toUpper` shift exactly the ASCII letter range,
which coincides with Python `str.lower`/`str.capitalize` on ASCII; the
latin-1 letters above U+007F on which the two differ can never compare
equal to the ASCII names (`host`, `content-length`, `connection`,
`content-type`, method names) these functions are used against, so the
ASCII mapping is faithful for every comparison the handler performs. -/

/-- Python `s.lower()` (ASCII range). -/
def pyLower (s : String) : String :=
  String.mk (s.data.map Char.toLower)

/-- Python `s.capitalize()` (ASCII range): first character uppercased,
the remainder lowercased.  `urllib.request.Request.add_header` applies this
to every header name before storing it in its header `dict`. -/
def pyCapitalize (s : String) : String :=
  match s.data with
  | [] => String.mk []
  | c :: rest => String.mk (Char.toUpper c :: rest.map Char.toLower)

/-- Python `s.startswith(pre)`. -/
def strStartsWith (s pre : String) : Bool :=
  pre.data.isPrefixOf s.data

/-! ### Python `int(string)`

`proxy_request` runs `int(self.headers.get('Content-Length', 0))`.  When the
header is present its string value is parsed by Python `int()`: surrounding
whitespace is stripped, an optional sign is allowed, then a nonempty run of
decimal digits with single underscores permitted between digits.  Anything
else raises `ValueError`, modelled as `none`.  (Within the latin-1 range of
header values the only decimal digits are ASCII `0`-`9`, and the characters
`int()` treats as strippable whitespace are the ones listed below.) -/

/-- Code points stripped by `int()` around a numeric literal. -/
def isPyIntSpace (n : Nat) : Bool :=
  [9, 10, 11, 12, 13, 28, 29, 30, 31, 32, 133, 160].contains n

/-- Value of an ASCII decimal digit. -/
def digitVal (c : Char) : Option Nat :=
  if 48 ≤ c.toNat ∧ c.toNat ≤ 57 then some (c.toNat - 48) else none

/-- Digit run after the first digit: digits, with a single `_` allowed
between two digits. -/
def digitsLoop (acc : Nat) : List Char → Option Nat
  | [] => some acc
  | c :: rest =>
    if c = Char.ofNat 95 then
      match rest with
      | c2 :: rest2 =>
        match digitVal c2 with
        | some d => digitsLoop (acc * 10 + d) rest2
        | none => none
      | [] => none
    else
      match digitVal c with
      | some d => digitsLoop (acc * 10 + d) rest
      | none => none

/-- A nonempty digit run (no leading underscore). -/
def parsePyDigits : List Char → Option Nat
  | [] => none
  | c :: rest =>
    match digitVal c with
    | some d => digitsLoop d rest
    | none => none

/-- Strip `int()` whitespace from both ends. -/
def pyIntStrip (l : List Char) : List Char :=
  (((l.dropWhile fun c => isPyIntSpace c.toNat).reverse.dropWhile
      fun c => isPyIntSpace c.toNat).reverse)

/-- Python `int(s)`; `none` models the `ValueError` raise. -/
def pyInt (s : String) : Option Int :=
  match pyIntStrip s.data with
  | c :: rest =>
    if c = '+' then (parsePyDigits rest).map Int.ofNat
    else if c = '-' then (parsePyDigits rest).map fun n => -(n : Int)
    else (parsePyDigits (c :: rest)).map Int.ofNat
  | [] => none

/-! ### Data model -/

/-- An inbound HTTP request as the handler sees it: `self.command`,
`self.path`, `self.headers` (in arrival order) and the body byte stream
`self.rfile`. -/
structure Inbound where
  command : String
  path : String
  headers : List (String × String)
  rfile : List Nat
deriving DecidableEq

/-- The outbound `urllib.request.Request`: target URL, optional body
(`data=body`), and its header `dict` (insertion ordered, keys normalised by
`str.capitalize`). -/
structure OutboundReq where
  url : String
  data : Option (List Nat)
  headers : List (String × String)
deriving DecidableEq

/-- Outcome of `urllib.request.urlopen(req, timeout=30)`:
a response object, an `HTTPError` (backend reachable, non-success status),
or a `URLError` (connection refused / DNS failure / timeout). -/
inductive BackendOutcome where
  | ok (status : Nat) (respHeaders : List (String × String)) (respBody : List Nat)
  | httpError (code : Nat) (reason : String) (errBody : List Nat)
  | connError (msg : String)
deriving DecidableEq

/-- A finished response on the wire: status code, header lines in the order
they were sent (after `end_headers` ran), body bytes. -/
structure RelayResponse where
  status : Nat
  headers : List (String × String)
  body : List Nat
deriving DecidableEq

/-- The fixed backend base address (`BACKEND_URL`). -/
def BACKEND_URL : String := "http://localhost:8000"

/-! ### Header plumbing -/

/-- `email.message.Message.get(name)` as used by `self.headers.get`:
case-insensitive lookup returning the first matching header's value. -/
def headersGet (hs : List (String × String)) (name : String) : Option String :=
  match hs with
  | [] => none
  | (k, v) :: rest => if pyLower k = pyLower name then some v else headersGet rest name

/-- `urllib.request.Request.add_header(k, v)`: the pair is stored in a
`dict` under `k.capitalize()`, so an existing entry with that normalised
name is overwritten in place, otherwise the entry is appended. -/
def addHeader (hs : List (String × String)) (k v : String) : List (String × String) :=
  let ck := pyCapitalize k
  if hs.any fun p => decide (p.1 = ck) then
    hs.map fun p => if p.1 = ck then (ck, v) else p
  else hs ++ [(ck, v)]

/-- Lookup in the outbound header `dict` (keys are unique after
normalisation, so first match is the entry). -/
def assocFind (hs : List (String × String)) (k : String) : Option String :=
  match hs with
  | [] => none
  | (k2, v) :: rest => if k2 = k then some v else assocFind rest k

/-- Header names `proxy_request` refuses to copy onto the outbound request. -/
def requestDenylist : List String := ["host", "content-length", "connection"]

/-- Backend response header names the relay drops before answering the
caller. -/
def responseDenylist : List String :=
  ["content-encoding", "transfer-encoding", "content-length", "connection"]

/-- The header-copy loop of `proxy_request`: for each inbound header,
`add_header` it unless its lowercased name is on the denylist. -/
def copyLoop (hs : List (String × String)) : List (String × String) → List (String × String)
  | [] => hs
  | (k, v) :: rest =>
    if pyLower k ∈ requestDenylist then copyLoop hs rest
    else copyLoop (addHeader hs k v) rest

/-! ### Reading the inbound body -/

/-- The raw `Content-Length` header value, if any
(`self.headers.get('Content-Length', 0)` yields the integer `0` instead
when the header is absent). -/
def contentLengthField (r : Inbound) : Option String :=
  headersGet r.headers "Content-Length"

/-- `int(self.headers.get('Content-Length', 0))`; `none` models the
`ValueError` raised on a malformed value. -/
def contentLengthVal (r : Inbound) : Option Int :=
  match contentLengthField r with
  | none => some 0
  | some s => pyInt s

/-- `body = self.rfile.read(content_length) if content_length > 0 else None`. -/
def inboundBody (r : Inbound) : Option (List Nat) :=
  match contentLengthVal r with
  | some n => if 0 < n then some (r.rfile.take n.toNat) else none
  | none => none

/-- Python truthiness of the `body` variable (`None` and `b''` are falsy). -/
def pyTruthyBody : Option (List Nat) → Bool
  | some l => !l.isEmpty
  | none => false

/-- Construction of the outbound request in `proxy_request`:
`urllib.request.Request(BACKEND_URL + self.path, data=body)`, then
`Content-Type: application/json` when a body is present, then the
header-copy loop. -/
def outboundRequest (r : Inbound) : OutboundReq :=
  let body := inboundBody r
  let h1 := if pyTruthyBody body then addHeader [] "Content-Type" "application/json" else []
  { url := BACKEND_URL ++ r.path
    data := body
    headers := copyLoop h1 r.headers }

/-! ### UTF-8

`proxy_request` decodes backend error bodies with
`.decode('utf-8', errors='ignore')` and re-encodes the JSON error payload
with `.encode()`.  The decoder below follows the UTF-8 table (two-byte
leads `C2`-`DF`, three-byte `E0`-`EF` with the `E0`/`ED` range
restrictions, four-byte `F0`-`F4` with the `F0`/`F4` restrictions); bytes
that cannot begin a valid sequence are dropped, as `errors='ignore'` drops
malformed input.  (For malformed input CPython may drop several bytes of an
invalid sequence at once where this model re-examines the remainder; the
two agree on every valid sequence, and only valid sequences occur in the
theorems below.) -/

/-- UTF-8 decoding, undecodable bytes dropped. -/
def utf8DecodeIgnore : List Nat → List Char
  | [] => []
  | b :: rest =>
    if b < 128 then Char.ofNat b :: utf8DecodeIgnore rest
    else if 194 ≤ b ∧ b ≤ 223 then
      match rest with
      | b2 :: rest2 =>
        if 128 ≤ b2 ∧ b2 ≤ 191 then
          Char.ofNat ((b - 192) * 64 + (b2 - 128)) :: utf8DecodeIgnore rest2
        else utf8DecodeIgnore (b2 :: rest2)
      | [] => []
    else if 224 ≤ b ∧ b ≤ 239 then
      match rest with
      | b2 :: b3 :: rest3 =>
        if (128 ≤ b2 ∧ b2 ≤ 191) ∧ (128 ≤ b3 ∧ b3 ≤ 191) ∧
            (b = 224 → 160 ≤ b2) ∧ (b = 237 → b2 ≤ 159) then
          Char.ofNat ((b - 224) * 4096 + (b2 - 128) * 64 + (b3 - 128)) ::
            utf8DecodeIgnore rest3
        else utf8DecodeIgnore (b2 :: b3 :: rest3)
      | [b2] => utf8DecodeIgnore [b2]
      | [] => []
    else if 240 ≤ b ∧ b ≤ 244 then
      match rest with
      | b2 :: b3 :: b4 :: rest4 =>
        if (128 ≤ b2 ∧ b2 ≤ 191) ∧ (128 ≤ b3 ∧ b3 ≤ 191) ∧ (128 ≤ b4 ∧ b4 ≤ 191) ∧
            (b = 240 → 144 ≤ b2) ∧ (b = 244 → b2 ≤ 143) then
          Char.ofNat ((b - 240) * 262144 + (b2 - 128) * 4096 + (b3 - 128) * 64 + (b4 - 128)) ::
            utf8DecodeIgnore rest4
        else utf8DecodeIgnore (b2 :: b3 :: b4 :: rest4)
      | [b2, b3] => utf8DecodeIgnore [b2, b3]
      | [b2] => utf8DecodeIgnore [b2]
      | [] => []
    else utf8DecodeIgnore rest

/-- UTF-8 encoding of one scalar value. -/
def utf8EncodeChar (c : Char) : List Nat :=
  let n := c.toNat
  if n < 128 then [n]
  else if n < 2048 then [192 + n / 64, 128 + n % 64]
  else if n < 65536 then [224 + n / 4096, 128 + n / 64 % 64, 128 + n % 64]
  else [240 + n / 262144, 128 + n / 4096 % 64, 128 + n / 64 % 64, 128 + n % 64]

/-- Python `str.encode()` (UTF-8). -/
def utf8Encode (l : List Char) : List Nat :=
  (l.map utf8EncodeChar).flatten

/-! ### The synthesized JSON error payloads -/

/-- The three-field dictionary each failure branch of `proxy_request`
passes to `json.dumps`. -/
structure ErrorPayload where
  error : String
  message : String
  details : String
deriving DecidableEq

/-- Lowercase hexadecimal digit. -/
def hexDigit (n : Nat) : Char :=
  if n < 10 then Char.ofNat (48 + n) else Char.ofNat (87 + n)

/-- Four lowercase hex digits (the `XXXX` of a `\uXXXX` escape). -/
def hex4 (n : Nat) : List Char :=
  [hexDigit (n / 4096 % 16), hexDigit (n / 256 % 16), hexDigit (n / 16 % 16), hexDigit (n % 16)]

/-- `json.dumps` escaping of one character (default `ensure_ascii=True`:
quote, backslash and control characters get short or `\uXXXX` escapes,
anything outside the printable ASCII range gets `\uXXXX`, astral scalars a
surrogate pair). -/
def jsonEscapeChar (c : Char) : List Char :=
  let n := c.toNat
  if n = 34 then [Char.ofNat 92, Char.ofNat 34]
  else if n = 92 then [Char.ofNat 92, Char.ofNat 92]
  else if n = 10 then [Char.ofNat 92, Char.ofNat 110]
  else if n = 13 then [Char.ofNat 92, Char.ofNat 114]
  else if n = 9 then [Char.ofNat 92, Char.ofNat 116]
  else if n = 8 then [Char.ofNat 92, Char.ofNat 98]
  else if n = 12 then [Char.ofNat 92, Char.ofNat 102]
  else if n < 32 then Char.ofNat 92 :: Char.ofNat 117 :: hex4 n
  else if n ≤ 126 then [c]
  else if n < 65536 then Char.ofNat 92 :: Char.ofNat 117 :: hex4 n
  else
    (Char.ofNat 92 :: Char.ofNat 117 :: hex4 (55296 + (n - 65536) / 1024)) ++
      (Char.ofNat 92 :: Char.ofNat 117 :: hex4 (56320 + (n - 65536) % 1024))

/-- A JSON string literal (quotes plus escaped content). -/
def jsonStrData (s : String) : List Char :=
  Char.ofNat 34 :: ((s.data.map jsonEscapeChar).flatten ++ [Char.ofNat 34])

/-- `json.dumps({"error": .., "message": .., "details": ..})` with the
default separators; Python dicts preserve insertion order, so the keys
appear in exactly this order. -/
def jsonDumpsPayload (p : ErrorPayload) : List Char :=
  "\x7b\"error\": ".data ++ jsonStrData p.error ++
    ", \"message\": ".data ++ jsonStrData p.message ++
    ", \"details\": ".data ++ jsonStrData p.details ++ "\x7d".data

/-- Payload of the `HTTPError` branch: the backend's error body is decoded
(UTF-8, undecodable bytes dropped) and, when nonempty, sliced to its first
200 characters. -/
def httpErrorPayload (code : Nat) (reason : String) (errBody : List Nat) : ErrorPayload :=
  let decoded := utf8DecodeIgnore errBody
  { error := "Backend error: " ++ Nat.repr code ++ " " ++ reason
    message := "The backend API returned an error. Please check if the backend is running and OPENAI_API_KEY is set."
    details := if decoded.isEmpty then "No error details available"
      else String.mk (decoded.take 200) }

/-- Payload of the `URLError` (backend unreachable) branch. -/
def connErrorPayload (msg : String) : ErrorPayload :=
  { error := "Backend connection failed"
    message := "Cannot connect to backend at " ++ BACKEND_URL ++
      ". Please ensure the backend is running on port 8000."
    details := msg }

/-- Payload of the generic `except Exception` branch. -/
def genericErrorPayload (details : String) : ErrorPayload :=
  { error := "Proxy error"
    message := "An unexpected error occurred in the proxy server"
    details := details }

/-- Message text of the `ValueError` raised by `int()` on a malformed
literal (the surrounding `repr` quoting is simplified to plain quotes; no
claim depends on this text). -/
def intErrMsg (s : String) : String :=
  "invalid literal for int() with base 10: \x27" ++ s ++ "\x27"

/-! ### Responses -/

/-- The three CORS headers of the `end_headers` override. -/
def corsHeaders : List (String × String) :=
  [("Access-Control-Allow-Origin", "*"),
   ("Access-Control-Allow-Methods", "GET, POST, OPTIONS"),
   ("Access-Control-Allow-Headers", "Content-Type")]

/-- `end_headers`: every code path that finishes a header block goes
through the override, which appends the three CORS headers to whatever was
already sent and then closes the block. -/
def finalizeHeaders (pending : List (String × String)) : List (String × String) :=
  pending ++ corsHeaders

/-- An error branch of `proxy_request`: `send_response(status)`,
`send_header('Content-Type', 'application/json')`, `end_headers()`, then
the `json.dumps(..).encode()` body. -/
def errorResponse (status : Nat) (p : ErrorPayload) : RelayResponse :=
  { status
    headers := finalizeHeaders [("Content-Type", "application/json")]
    body := utf8Encode (jsonDumpsPayload p) }

/-- `BaseHTTPRequestHandler.send_error(code, ..)`: status line, the fixed
`Content-Type`/`Connection` headers, `end_headers` (hence CORS), and an
HTML explanation page (not modelled byte-for-byte: no claim inspects it). -/
def sendErrorResp (code : Nat) : RelayResponse :=
  { status := code
    headers := finalizeHeaders
      [("Content-Type", "text/html;charset=utf-8"), ("Connection", "close")]
    body := [] }

/-- `proxy_request`, as a function of the inbound request and of what
`urlopen` does with the outbound request it is handed.  A `ValueError`
from `int()` aborts before any network activity and lands in the generic
`except Exception` branch (it is not a `URLError`); the success branch
streams the backend body through unchanged (8 KiB chunks concatenate back
to the identical byte sequence) after dropping the transport framing
headers; the two error branches synthesize JSON payloads. -/
def proxyRequest (r : Inbound) (backend : OutboundReq → BackendOutcome) : RelayResponse :=
  match contentLengthVal r with
  | none =>
    errorResponse 500 (genericErrorPayload (intErrMsg ((contentLengthField r).getD "")))
  | some _ =>
    match backend (outboundRequest r) with
    | .ok status respHeaders respBody =>
      { status
        headers := finalizeHeaders
          (respHeaders.filter fun p => decide (pyLower p.1 ∉ responseDenylist))
        body := respBody }
    | .httpError code reason errBody =>
      errorResponse code (httpErrorPayload code reason errBody)
    | .connError msg => errorResponse 502 (connErrorPayload msg)

/-! ### Dispatch -/

/-- Which branch a request takes. -/
inductive Branch where
  | proxied
  | staticFile (p : String)
  | rejected (code : Nat)
deriving DecidableEq

/-- `ProxyHandler.do_GET`: proxy under `/api/`, otherwise serve a static
file, rewriting the bare root path to the default document. -/
def doGET (path : String) : Branch :=
  if strStartsWith path "/api/" then .proxied
  else .staticFile (if path = "/" then "/index.html" else path)

/-- `ProxyHandler.do_POST`: proxy under `/api/`, otherwise 404. -/
def doPOST (path : String) : Branch :=
  if strStartsWith path "/api/" then .proxied else .rejected 404

/-- `SimpleHTTPRequestHandler.do_HEAD` (inherited, not overridden): always
the static branch. -/
def doHEAD (path : String) : Branch := .staticFile path

/-- `BaseHTTPRequestHandler.handle_one_request` dispatches on
`'do_' + self.command` (exact case); `ProxyHandler` defines `do_GET` and
`do_POST`, inherits `do_HEAD`, and every other method name finds no
handler and draws `send_error(501, "Unsupported method ..")`. -/
def route (r : Inbound) : Branch :=
  if r.command = "GET" then doGET r.path
  else if r.command = "POST" then doPOST r.path
  else if r.command = "HEAD" then doHEAD r.path
  else .rejected 501

/-- The whole per-request behaviour of the relay.  `fs` abstracts the
document root (path to file bytes), `staticHdrs` the headers
`SimpleHTTPRequestHandler.send_head` computes for a found file; both serve
their headers through `end_headers`, i.e. `finalizeHeaders`. -/
def handleConnection (r : Inbound) (backend : OutboundReq → BackendOutcome)
    (fs : String → Option (List Nat))
    (staticHdrs : String → List (String × String)) : RelayResponse :=
  match route r with
  | .proxied => proxyRequest r backend
  | .staticFile p =>
    match fs p with
    | some content =>
      { status := 200, headers := finalizeHeaders (staticHdrs p), body := content }
    | none => sendErrorResp 404
  | .rejected code => sendErrorResp code

/-! ### Helpers for stating the claims -/

/-- Substring test on character lists (Python `needle in hay` on strings). -/
def hasSub (needle : List Char) : List Char → Bool
  | [] => needle.isEmpty
  | c :: t => needle.isPrefixOf (c :: t) || hasSub needle t

/-- Value of the last inbound header whose name compares case-insensitively
equal to `Content-Type` — with duplicate inbound names, the last `add_header`
call is the one that survives in the outbound `dict`. -/
def lastCTValue : List (String × String) → Option String
  | [] => none
  | (k, v) :: rest =>
    match lastCTValue rest with
    | some w => some w
    | none => if pyLower k = "content-type" then some v else none

/-- A 300-byte backend error body: 150 copies of the two-byte UTF-8
encoding of U+00E9.  It decodes to 150 characters, so the code's
`error_body[:200]` keeps all 300 bytes, while a 200-byte truncation would
keep 100 characters. -/
def accentBody : List Nat := (List.replicate 150 [195, 169]).flatten

/-! ### Concrete fixtures for witnesses -/

/-- A plain proxied POST with a five-byte declared body. -/
def reqPost : Inbound :=
  { command := "POST", path := "/api/chat",
    headers := [("Host", "localhost:3000"), ("Content-Length", "5"), ("X-Api-Key", "k")],
    rfile := [104, 101, 108, 108, 111, 33, 33] }

/-- A proxied POST whose caller supplied its own content type. -/
def reqCT : Inbound :=
  { command := "POST", path := "/api/chat",
    headers := [("Content-Length", "2"), ("CONTENT-TYPE", "text/plain")],
    rfile := [104, 105] }

/-- A proxied POST with a malformed `Content-Length` value. -/
def reqBadCL : Inbound :=
  { command := "POST", path := "/api/chat",
    headers := [("Content-Length", "abc")], rfile := [] }

/-- The bytes of the backend error body from the spec example. -/
def boomBody : List Nat :=
  [123, 34, 100, 101, 116, 97, 105, 108, 34, 58, 34, 98, 111, 111, 109, 34, 125]

/-! ## General lemmas -/

theorem char_toNat_ofNat (n : Nat) (h : n < 55296) : (Char.ofNat n).toNat = n := by
  have hv : n.isValidChar := Or.inl h
  simp only [Char.ofNat, dif_pos hv, Char.ofNatAux, Char.toNat, UInt32.toNat]
  simp [BitVec.toNat_ofNatLt]

theorem char_eq_of_toNat {c d : Char} (h : c.toNat = d.toNat) : c = d :=
  Char.ext (UInt32.toNat.inj h)

theorem toLower_toNat (c : Char) :
    (Char.toLower c).toNat = if 65 ≤ c.toNat ∧ c.toNat ≤ 90 then c.toNat + 32 else c.toNat := by
  simp only [Char.toLower]
  split
  next h => rw [char_toNat_ofNat _ (by omega)]
  next h => rfl

theorem toUpper_toNat (c : Char) :
    (Char.toUpper c).toNat = if 97 ≤ c.toNat ∧ c.toNat ≤ 122 then c.toNat - 32 else c.toNat := by
  simp only [Char.toUpper]
  split
  next h => rw [char_toNat_ofNat _ (by omega)]
  next h => rfl

theorem toLower_toUpper (c : Char) : Char.toLower (Char.toUpper c) = Char.toLower c := by
  apply char_eq_of_toNat
  rw [toLower_toNat (Char.toUpper c), toLower_toNat c, toUpper_toNat c]
  split_ifs <;> omega

theorem toLower_toLower (c : Char) : Char.toLower (Char.toLower c) = Char.toLower c := by
  apply char_eq_of_toNat
  rw [toLower_toNat (Char.toLower c), toLower_toNat c]
  split_ifs <;> omega

theorem toUpper_eq_iff_toLower_eq (c d : Char) :
    Char.toUpper c = Char.toUpper d ↔ Char.toLower c = Char.toLower d := by
  constructor <;> intro h <;> apply char_eq_of_toNat <;> have h2 := congrArg Char.toNat h
  · rw [toUpper_toNat c, toUpper_toNat d] at h2
    rw [toLower_toNat c, toLower_toNat d]
    split_ifs at * <;> omega
  · rw [toLower_toNat c, toLower_toNat d] at h2
    rw [toUpper_toNat c, toUpper_toNat d]
    split_ifs at * <;> omega

theorem pyLower_pyCapitalize (s : String) : pyLower (pyCapitalize s) = pyLower s := by
  obtain ⟨data⟩ := s
  match data with
  | [] => rfl
  | c :: rest =>
    show pyLower (String.mk (Char.toUpper c :: rest.map Char.toLower)) =
      String.mk (Char.toLower c :: rest.map Char.toLower)
    simp only [pyLower, List.map_cons, List.map_map]
    rw [toLower_toUpper]
    have ht : List.map (Char.toLower ∘ Char.toLower) rest = List.map Char.toLower rest :=
      List.map_congr_left fun a _ => toLower_toLower a
    rw [ht]

theorem pyCapitalize_eq_iff (a b : String) :
    pyCapitalize a = pyCapitalize b ↔ pyLower a = pyLower b := by
  obtain ⟨da⟩ := a
  obtain ⟨db⟩ := b
  match da, db with
  | [], [] => simp
  | [], c :: r => simp [pyCapitalize, pyLower, String.ext_iff]
  | c :: r, [] => simp [pyCapitalize, pyLower, String.ext_iff]
  | c :: r, c2 :: r2 =>
    show String.mk (Char.toUpper c :: r.map Char.toLower) =
        String.mk (Char.toUpper c2 :: r2.map Char.toLower) ↔ _
    simp only [pyLower, List.map_cons, String.ext_iff, List.cons.injEq]
    rw [toUpper_eq_iff_toLower_eq]

theorem pyCapitalize_eq_ct_iff (k : String) :
    pyCapitalize k = "Content-type" ↔ pyLower k = "content-type" := by
  have h := pyCapitalize_eq_iff k "content-type"
  rw [show pyCapitalize "content-type" = "Content-type" from by decide] at h
  rw [show pyLower "content-type" = "content-type" from by decide] at h
  exact h

theorem denylist_lower_ne_ct {k : String} (h : pyLower k ∈ requestDenylist) :
    pyLower k ≠ "content-type" := by
  intro hc
  rw [hc] at h
  exact (by decide : "content-type" ∉ requestDenylist) h

theorem isPrefixOf_append_self (l t : List Char) : l.isPrefixOf (l ++ t) = true := by
  induction l with
  | nil => simp
  | cons a as ih =>
    simp only [List.cons_append, List.isPrefixOf_cons₂_self]
    exact ih

theorem hasSub_nil (h : List Char) : hasSub [] h = true := by
  cases h <;> simp [hasSub]

theorem hasSub_append (n a b : List Char) : hasSub n (a ++ n ++ b) = true := by
  induction a with
  | nil =>
    match n with
    | [] => simpa using hasSub_nil b
    | x :: xs =>
      show hasSub (x :: xs) (x :: xs ++ b) = true
      have hp := isPrefixOf_append_self (x :: xs) b
      cases hh : x :: xs ++ b with
      | nil => simp at hh
      | cons y ys =>
        rw [← hh]
        simp [hasSub, hp]
  | cons c a ih =>
    show (n.isPrefixOf (c :: (a ++ n ++ b)) || hasSub n (a ++ n ++ b)) = true
    rw [ih, Bool.or_true]

theorem jsonDumps_keys (p : ErrorPayload) :
    hasSub "\"error\"".data (jsonDumpsPayload p) = true ∧
    hasSub "\"message\"".data (jsonDumpsPayload p) = true ∧
    hasSub "\"details\"".data (jsonDumpsPayload p) = true := by
  refine ⟨?_, ?_, ?_⟩
  · have hsplit : jsonDumpsPayload p =
        "\x7b".data ++ "\"error\"".data ++
          (": ".data ++ jsonStrData p.error ++ ", \"message\": ".data ++
            jsonStrData p.message ++ ", \"details\": ".data ++ jsonStrData p.details ++
            "\x7d".data) := by
      simp [jsonDumpsPayload, List.append_assoc]
    rw [hsplit]
    exact hasSub_append _ _ _
  · have hsplit : jsonDumpsPayload p =
        ("\x7b\"error\": ".data ++ jsonStrData p.error ++ ", ".data) ++ "\"message\"".data ++
          (": ".data ++ jsonStrData p.message ++ ", \"details\": ".data ++
            jsonStrData p.details ++ "\x7d".data) := by
      simp [jsonDumpsPayload, List.append_assoc]
    rw [hsplit]
    exact hasSub_append _ _ _
  · have hsplit : jsonDumpsPayload p =
        ("\x7b\"error\": ".data ++ jsonStrData p.error ++ ", \"message\": ".data ++
            jsonStrData p.message ++ ", ".data) ++ "\"details\"".data ++
          (": ".data ++ jsonStrData p.details ++ "\x7d".data) := by
      simp [jsonDumpsPayload, List.append_assoc]
    rw [hsplit]
    exact hasSub_append _ _ _

theorem assocFind_cons (k2 v2 : String) (rest : List (String × String)) (k : String) :
    assocFind ((k2, v2) :: rest) k = if k2 = k then some v2 else assocFind rest k := rfl

theorem assocFind_map_update {ck v : String} (d : List (String × String))
    (h : (d.any fun p => decide (p.1 = ck)) = true) :
    assocFind (d.map fun p => if p.1 = ck then (ck, v) else p) ck = some v := by
  induction d with
  | nil => simp at h
  | cons p rest ih =>
    obtain ⟨k2, v2⟩ := p
    simp only [List.map_cons]
    by_cases hp : k2 = ck
    · rw [show (if ((k2, v2) : String × String).1 = ck then (ck, v) else (k2, v2)) = (ck, v)
        from if_pos hp]
      rw [assocFind_cons, if_pos rfl]
    · rw [show (if ((k2, v2) : String × String).1 = ck then (ck, v) else (k2, v2)) = (k2, v2)
        from if_neg hp]
      rw [assocFind_cons, if_neg hp]
      apply ih
      simp only [List.any_cons, Bool.or_eq_true, decide_eq_true_eq] at h
      exact h.resolve_left hp

theorem assocFind_map_update_other {ck v k2 : String} (hne : k2 ≠ ck)
    (d : List (String × String)) :
    assocFind (d.map fun p => if p.1 = ck then (ck, v) else p) k2 = assocFind d k2 := by
  induction d with
  | nil => rfl
  | cons p rest ih =>
    obtain ⟨k3, v3⟩ := p
    simp only [List.map_cons]
    by_cases hp : k3 = ck
    · rw [show (if ((k3, v3) : String × String).1 = ck then (ck, v) else (k3, v3)) = (ck, v)
        from if_pos hp]
      rw [assocFind_cons, assocFind_cons]
      rw [if_neg fun hh => hne hh.symm, if_neg fun hh => hne (hp ▸ hh.symm)]
      exact ih
    · rw [show (if ((k3, v3) : String × String).1 = ck then (ck, v) else (k3, v3)) = (k3, v3)
        from if_neg hp]
      rw [assocFind_cons, assocFind_cons]
      by_cases hk : k3 = k2
      · rw [if_pos hk, if_pos hk]
      · rw [if_neg hk, if_neg hk]
        exact ih

theorem assocFind_none_of_not_any {ck : String} (d : List (String × String))
    (h : (d.any fun p => decide (p.1 = ck)) = false) :
    assocFind d ck = none := by
  induction d with
  | nil => rfl
  | cons p rest ih =>
    obtain ⟨k2, v2⟩ := p
    simp only [List.any_cons, Bool.or_eq_false_iff, decide_eq_false_iff_not] at h
    rw [assocFind_cons, if_neg h.1]
    exact ih (by simpa using h.2)

theorem assocFind_append_single {ck v : String} (d : List (String × String))
    (h : assocFind d ck = none) :
    assocFind (d ++ [(ck, v)]) ck = some v := by
  induction d with
  | nil => rw [List.nil_append, assocFind_cons, if_pos rfl]
  | cons p rest ih =>
    obtain ⟨k2, v2⟩ := p
    rw [assocFind_cons] at h
    by_cases hp : k2 = ck
    · rw [if_pos hp] at h
      exact absurd h (by simp)
    · rw [if_neg hp] at h
      rw [List.cons_append, assocFind_cons, if_neg hp]
      exact ih h

theorem assocFind_append_single_other {ck v k2 : String} (hne : k2 ≠ ck)
    (d : List (String × String)) :
    assocFind (d ++ [(ck, v)]) k2 = assocFind d k2 := by
  induction d with
  | nil =>
    rw [List.nil_append, assocFind_cons, if_neg fun hh => hne hh.symm]
  | cons p rest ih =>
    obtain ⟨k3, v3⟩ := p
    rw [List.cons_append, assocFind_cons, assocFind_cons]
    by_cases hk : k3 = k2
    · rw [if_pos hk, if_pos hk]
    · rw [if_neg hk, if_neg hk]
      exact ih

theorem assocFind_addHeader_self (d : List (String × String)) (k v : String) :
    assocFind (addHeader d k v) (pyCapitalize k) = some v := by
  simp only [addHeader]
  split
  next h => exact assocFind_map_update d h
  next h =>
    exact assocFind_append_single d
      (assocFind_none_of_not_any d (Bool.not_eq_true _ ▸ h))

theorem assocFind_addHeader_other (d : List (String × String)) (k v k2 : String)
    (hne : k2 ≠ pyCapitalize k) :
    assocFind (addHeader d k v) k2 = assocFind d k2 := by
  simp only [addHeader]
  split
  next h => exact assocFind_map_update_other hne d
  next h => exact assocFind_append_single_other hne d

theorem mem_addHeader {d : List (String × String)} {k v : String} {p : String × String}
    (hp : p ∈ addHeader d k v) : p.1 = pyCapitalize k ∨ p ∈ d := by
  simp only [addHeader] at hp
  split at hp
  · rcases List.mem_map.mp hp with ⟨q, hq, hqe⟩
    by_cases hqk : q.1 = pyCapitalize k
    · left; rw [← hqe, if_pos hqk]
    · right; rw [← hqe, if_neg hqk]; exact hq
  · rcases List.mem_append.mp hp with h | h
    · right; exact h
    · left; rw [List.mem_singleton.mp h]

theorem keys_map_update (d : List (String × String)) (ck v : String) :
    ((d.map fun p => if p.1 = ck then (ck, v) else p).map Prod.fst) = d.map Prod.fst := by
  rw [List.map_map]
  apply List.map_congr_left
  intro q _
  by_cases h : q.1 = ck
  · simp [Function.comp, if_pos h, h]
  · simp [Function.comp, if_neg h]

theorem key_mem_addHeader_self (d : List (String × String)) (k v : String) :
    pyCapitalize k ∈ (addHeader d k v).map Prod.fst := by
  simp only [addHeader]
  split
  next h =>
    rw [keys_map_update]
    rcases List.any_eq_true.mp h with ⟨q, hq, hdec⟩
    exact List.mem_map.mpr ⟨q, hq, of_decide_eq_true hdec⟩
  next h =>
    rw [List.map_append]
    exact List.mem_append_right _ (by simp)

theorem key_mem_addHeader_of_mem {x : String} (d : List (String × String)) (k v : String)
    (hx : x ∈ d.map Prod.fst) : x ∈ (addHeader d k v).map Prod.fst := by
  simp only [addHeader]
  split
  next => rw [keys_map_update]; exact hx
  next =>
    rw [List.map_append]
    exact List.mem_append_left _ hx

theorem mem_copyLoop (hs : List (String × String)) :
    ∀ d p, p ∈ copyLoop d hs →
      p ∈ d ∨ ∃ k v, (k, v) ∈ hs ∧ pyLower k ∉ requestDenylist ∧ p.1 = pyCapitalize k := by
  induction hs with
  | nil => intro d p hp; exact Or.inl hp
  | cons kv rest ih =>
    obtain ⟨k, v⟩ := kv
    intro d p hp
    simp only [copyLoop] at hp
    split at hp
    next hdeny =>
      rcases ih d p hp with h | ⟨k2, v2, hm, hd, he⟩
      · exact Or.inl h
      · exact Or.inr ⟨k2, v2, List.mem_cons_of_mem _ hm, hd, he⟩
    next hdeny =>
      rcases ih (addHeader d k v) p hp with h | ⟨k2, v2, hm, hd, he⟩
      · rcases mem_addHeader h with hk | hdm
        · exact Or.inr ⟨k, v, List.mem_cons_self _ _, hdeny, hk⟩
        · exact Or.inl hdm
      · exact Or.inr ⟨k2, v2, List.mem_cons_of_mem _ hm, hd, he⟩

theorem keys_mono_copyLoop (hs : List (String × String)) :
    ∀ d x, x ∈ d.map Prod.fst → x ∈ (copyLoop d hs).map Prod.fst := by
  induction hs with
  | nil => intro d x hx; exact hx
  | cons kv rest ih =>
    obtain ⟨k, v⟩ := kv
    intro d x hx
    simp only [copyLoop]
    split
    next => exact ih d x hx
    next => exact ih (addHeader d k v) x (key_mem_addHeader_of_mem d k v hx)

theorem key_mem_copyLoop_of_mem (hs : List (String × String)) :
    ∀ d k v, (k, v) ∈ hs → pyLower k ∉ requestDenylist →
      pyCapitalize k ∈ (copyLoop d hs).map Prod.fst := by
  induction hs with
  | nil => intro d k v hm; exact absurd hm (List.not_mem_nil _)
  | cons kv rest ih =>
    obtain ⟨k2, v2⟩ := kv
    intro d k v hm hdeny
    rcases List.mem_cons.mp hm with he | ht
    · obtain ⟨rfl, rfl⟩ := Prod.mk.injEq .. ▸ he
      simp only [copyLoop]
      split
      next hin => exact absurd hin hdeny
      next => exact keys_mono_copyLoop rest _ _ (key_mem_addHeader_self d k v)
    · simp only [copyLoop]
      split
      next => exact ih d k v ht hdeny
      next => exact ih (addHeader d k2 v2) k v ht hdeny

theorem assocFind_copyLoop_ct (hs : List (String × String)) :
    ∀ d, assocFind (copyLoop d hs) "Content-type" =
      match lastCTValue hs with
      | some w => some w
      | none => assocFind d "Content-type" := by
  induction hs with
  | nil => intro d; rfl
  | cons kv rest ih =>
    obtain ⟨k, v⟩ := kv
    intro d
    simp only [copyLoop]
    split
    next hdeny =>
      have hne : pyLower k ≠ "content-type" := denylist_lower_ne_ct hdeny
      rw [ih d]
      cases hl : lastCTValue rest with
      | some w => simp [lastCTValue, hl]
      | none => simp [lastCTValue, hl, hne]
    next hdeny =>
      by_cases hct : pyLower k = "content-type"
      · have hcap : pyCapitalize k = "Content-type" := (pyCapitalize_eq_ct_iff k).mpr hct
        rw [ih (addHeader d k v)]
        cases hl : lastCTValue rest with
        | some w => simp [lastCTValue, hl]
        | none =>
          simp only [lastCTValue, hl, if_pos hct]
          rw [← hcap]
          exact assocFind_addHeader_self d k v
      · have hcap : pyCapitalize k ≠ "Content-type" :=
          fun hh => hct ((pyCapitalize_eq_ct_iff k).mp hh)
        rw [ih (addHeader d k v)]
        cases hl : lastCTValue rest with
        | some w => simp [lastCTValue, hl]
        | none =>
          simp only [lastCTValue, hl, if_neg hct]
          exact assocFind_addHeader_other d k v _ fun hh => hcap hh.symm

theorem lastCTValue_eq_none {hs : List (String × String)}
    (h : ∀ kv ∈ hs, pyLower kv.1 ≠ "content-type") : lastCTValue hs = none := by
  induction hs with
  | nil => rfl
  | cons kv rest ih =>
    obtain ⟨k, v⟩ := kv
    have hr : lastCTValue rest = none := ih fun q hq => h q (List.mem_cons_of_mem _ hq)
    simp [lastCTValue, hr, h (k, v) (List.mem_cons_self _ _)]

/-! ## The claims -/

/-- C1: for every proxied request carrying a body — a declared
`Content-Length` that parses to a positive value — exactly that many bytes
are read from the inbound stream, and the byte sequence attached to the
outbound request is that very sequence, with no transformation or
re-encoding. -/
theorem c1_body_roundtrip (r : Inbound) (n : Int)
    (hcl : contentLengthVal r = some n) (hpos : 0 < n) :
    inboundBody r = some (r.rfile.take n.toNat) ∧
    (outboundRequest r).data = inboundBody r := by
  constructor
  · simp [inboundBody, hcl, hpos]
  · rfl

/-- Witness for C1 at a concrete request: five declared bytes of a
seven-byte stream are read and forwarded unchanged. -/
theorem c1_body_roundtrip_witness :
    inboundBody reqPost = some [104, 101, 108, 108, 111] ∧
    (outboundRequest reqPost).data = some [104, 101, 108, 108, 111] := by
  have h := c1_body_roundtrip reqPost 5 (by decide) (by decide)
  exact ⟨h.1.trans (by decide), (h.2.trans h.1).trans (by decide)⟩

/-- C2 (corrected): the claim that any method under `/api/` is proxied
fails — the handler only defines `do_GET` and `do_POST`, so the library
dispatch answers 501 "Unsupported method" to a `DELETE /api/health`
without ever reaching `proxy_request`. -/
theorem c2_counterexample :
    strStartsWith "/api/health" "/api/" = true ∧
    route { command := "DELETE", path := "/api/health", headers := [], rfile := [] } ≠
      Branch.proxied ∧
    route { command := "DELETE", path := "/api/health", headers := [], rfile := [] } =
      Branch.rejected 501 := by
  decide

/-- C2 (amended): every inbound GET or POST request whose path starts with
`/api/` is proxied — it never takes the static branch and is never
rejected. -/
theorem c2_api_methods_proxied (r : Inbound)
    (hm : r.command = "GET" ∨ r.command = "POST")
    (hp : strStartsWith r.path "/api/" = true) :
    route r = Branch.proxied := by
  rcases hm with h | h <;> simp [route, doGET, doPOST, h, hp]

/-- Witness for the amended C2 at concrete GET and POST requests. -/
theorem c2_api_methods_proxied_witness :
    route { command := "GET", path := "/api/health", headers := [], rfile := [] } =
      Branch.proxied ∧
    route reqPost = Branch.proxied := by
  constructor
  · exact c2_api_methods_proxied _ (Or.inl rfl) (by decide)
  · exact c2_api_methods_proxied reqPost (Or.inr rfl) (by decide)

/-- C3 (corrected): a non-prefixed `DELETE /something` is answered 501
"Unsupported method" by the library dispatch, not 404 — only POST draws
the handler's 404. -/
theorem c3_counterexample :
    strStartsWith "/something" "/api/" = false ∧
    route { command := "DELETE", path := "/something", headers := [], rfile := [] } ≠
      Branch.rejected 404 ∧
    route { command := "DELETE", path := "/something", headers := [], rfile := [] } =
      Branch.rejected 501 := by
  decide

/-- C3 (amended): on a path outside `/api/`, a POST is answered 404 and
the proxy exchange is never invoked; no other non-GET method reaches the
proxy either — HEAD takes the static branch and any method without a
`do_`-handler is rejected 501. -/
theorem c3_non_api_not_proxied (r : Inbound)
    (hp : strStartsWith r.path "/api/" = false) :
    (r.command = "POST" → route r = Branch.rejected 404) ∧
    route r ≠ Branch.proxied ∧
    (r.command ≠ "GET" → r.command ≠ "POST" → r.command ≠ "HEAD" →
      route r = Branch.rejected 501) := by
  refine ⟨?_, ?_, ?_⟩
  · intro h
    simp [route, doPOST, h, hp]
  · by_cases hg : r.command = "GET"
    · simp [route, doGET, hg, hp]
    · by_cases hpo : r.command = "POST"
      · simp [route, doPOST, hg, hpo, hp]
      · by_cases hh : r.command = "HEAD" <;> simp [route, doHEAD, hg, hpo, hh]
  · intro h1 h2 h3
    simp [route, h1, h2, h3]

/-- Witness for the amended C3 at a concrete `POST /something`. -/
theorem c3_non_api_not_proxied_witness :
    route { command := "POST", path := "/something", headers := [], rfile := [] } =
      Branch.rejected 404 := by
  exact (c3_non_api_not_proxied _ (by decide)).1 rfl

/-- C4: every response the relay emits — static or proxied, success or any
error branch — carries the three fixed CORS headers, appended by the
`end_headers` override immediately before the header block is closed. -/
theorem c4_cors_always (r : Inbound) (backend : OutboundReq → BackendOutcome)
    (fs : String → Option (List Nat)) (staticHdrs : String → List (String × String)) :
    ("Access-Control-Allow-Origin", "*") ∈ (handleConnection r backend fs staticHdrs).headers ∧
    ("Access-Control-Allow-Methods", "GET, POST, OPTIONS") ∈
      (handleConnection r backend fs staticHdrs).headers ∧
    ("Access-Control-Allow-Headers", "Content-Type") ∈
      (handleConnection r backend fs staticHdrs).headers := by
  suffices hpend : ∃ pending,
      (handleConnection r backend fs staticHdrs).headers = finalizeHeaders pending by
    rcases hpend with ⟨pending, hp⟩
    rw [hp]
    exact ⟨List.mem_append_right _ (by decide), List.mem_append_right _ (by decide),
      List.mem_append_right _ (by decide)⟩
  unfold handleConnection
  cases route r with
  | proxied =>
    unfold proxyRequest
    cases contentLengthVal r with
    | none => exact ⟨_, rfl⟩
    | some n =>
      cases backend (outboundRequest r) with
      | ok s hs b => exact ⟨_, rfl⟩
      | httpError c re eb => exact ⟨_, rfl⟩
      | connError m => exact ⟨_, rfl⟩
  | staticFile p =>
    dsimp only
    cases fs p with
    | some content => exact ⟨_, rfl⟩
    | none => exact ⟨_, rfl⟩
  | rejected code => exact ⟨_, rfl⟩

/-- C5: the copy loop puts every inbound header whose lowercased name is
not `host`, `content-length` or `connection` onto the outbound request,
and nothing with one of those three names is ever in the outbound header
set. -/
theorem c5_header_filter (r : Inbound) :
    (∀ kv ∈ r.headers, pyLower kv.1 ∉ requestDenylist →
        pyCapitalize kv.1 ∈ (outboundRequest r).headers.map Prod.fst) ∧
    (∀ p ∈ (outboundRequest r).headers, pyLower p.1 ∉ requestDenylist) := by
  constructor
  · intro kv hm hd
    exact key_mem_copyLoop_of_mem r.headers _ kv.1 kv.2 hm hd
  · intro p hp
    have hout : (outboundRequest r).headers =
        copyLoop (if pyTruthyBody (inboundBody r) then
          addHeader [] "Content-Type" "application/json" else []) r.headers := rfl
    rw [hout] at hp
    rcases mem_copyLoop r.headers _ p hp with h | ⟨k, v, _, hd, he⟩
    · split at h
      · rw [show addHeader [] "Content-Type" "application/json" =
            [("Content-type", "application/json")] from by decide] at h
        have hp2 := List.mem_singleton.mp h
        rw [hp2]
        decide
      · exact absurd h (List.not_mem_nil p)
    · rw [he, pyLower_pyCapitalize]
      exact hd

/-- Witness for C5 at a concrete request: the custom header is copied (as
its normalised name), and a surviving outbound header is indeed not
denylisted. -/
theorem c5_header_filter_witness :
    pyCapitalize "X-Api-Key" ∈ (outboundRequest reqPost).headers.map Prod.fst ∧
    pyLower ("X-api-key", "k").1 ∉ requestDenylist := by
  refine ⟨(c5_header_filter reqPost).1 ("X-Api-Key", "k") (by decide) (by decide), ?_⟩
  exact (c5_header_filter reqPost).2 ("X-api-key", "k") (by decide)

/-- C9: a GET for exactly `/api` — no trailing slash — is not proxied:
`startswith('/api/')` is false, so the request falls through to the
static-file branch. -/
theorem c9_api_without_slash_static :
    strStartsWith "/api" "/api/" = false ∧
    route { command := "GET", path := "/api", headers := [], rfile := [] } =
      Branch.staticFile "/api" := by
  decide

/-- C8: on a proxied request with a nonempty body, the outbound
`Content-Type` defaults to `application/json` when the caller sent no
content type, and equals the caller's value when one was supplied (the
copy loop's `add_header` overwrites the JSON default). -/
theorem c8_content_type_default (r : Inbound) (n : Int)
    (hcl : contentLengthVal r = some n) (hpos : 0 < n) (hrf : r.rfile ≠ []) :
    ((∀ kv ∈ r.headers, pyLower kv.1 ≠ "content-type") →
        assocFind (outboundRequest r).headers "Content-type" = some "application/json") ∧
    (∀ v, lastCTValue r.headers = some v →
        assocFind (outboundRequest r).headers "Content-type" = some v) := by
  have hbody : inboundBody r = some (r.rfile.take n.toNat) := by
    simp [inboundBody, hcl, hpos]
  have htk : r.rfile.take n.toNat ≠ [] := by
    intro hcon
    have hlen := congrArg List.length hcon
    have hpos2 : 0 < r.rfile.length := List.length_pos.mpr hrf
    rw [List.length_take, List.length_nil] at hlen
    omega
  have htruthy : pyTruthyBody (inboundBody r) = true := by
    rw [hbody]
    simp [pyTruthyBody, htk]
  have hout : (outboundRequest r).headers =
      copyLoop [("Content-type", "application/json")] r.headers := by
    show copyLoop (if pyTruthyBody (inboundBody r) then
        addHeader [] "Content-Type" "application/json" else []) r.headers = _
    rw [if_pos htruthy]
    rw [show addHeader [] "Content-Type" "application/json" =
        [("Content-type", "application/json")] from by decide]
  constructor
  · intro hnone
    rw [hout, assocFind_copyLoop_ct, lastCTValue_eq_none hnone]
    decide
  · intro v hv
    rw [hout, assocFind_copyLoop_ct, hv]

/-- Witness for C8: the default applies on a request without a content
type, and a caller-supplied `CONTENT-TYPE: text/plain` survives. -/
theorem c8_content_type_default_witness :
    assocFind (outboundRequest reqPost).headers "Content-type" = some "application/json" ∧
    assocFind (outboundRequest reqCT).headers "Content-type" = some "text/plain" := by
  constructor
  · exact (c8_content_type_default reqPost 5 (by decide) (by decide) (by decide)).1 (by decide)
  · exact (c8_content_type_default reqCT 2 (by decide) (by decide) (by decide)).2
      "text/plain" (by decide)

set_option maxRecDepth 10000 in
/-- C6 counterexample: on a 300-byte backend error body made of 150
two-byte characters, the `details` field is not the error body truncated
to 200 bytes: the code slices the decoded string to 200 characters, which
here keeps all 300 bytes.  Neither byte reading of the claim holds —
`details` re-encoded is not the 200-byte prefix, nor is `details` the
decoding of the 200-byte prefix. -/
theorem c6_counterexample :
    utf8Encode (httpErrorPayload 500 "Internal Server Error" accentBody).details.data ≠
      accentBody.take 200 ∧
    (httpErrorPayload 500 "Internal Server Error" accentBody).details ≠
      String.mk (utf8DecodeIgnore (accentBody.take 200)) := by
  decide

/-- C6 (amended): on a backend HTTP error with a (decodable, nonempty)
error body, the relay forwards the same status code with the
`json.dumps` of an `error`/`message`/`details` object, where `details` is
the UTF-8 decoding of the backend error body truncated to 200 characters
(undecodable bytes dropped), and `error` contains the status code as a
literal substring. -/
theorem c6_http_error_forwarded (r : Inbound) (code : Nat) (reason : String)
    (errBody : List Nat) (hcl : (contentLengthVal r).isSome = true)
    (hne : utf8DecodeIgnore errBody ≠ []) :
    (proxyRequest r fun _ => .httpError code reason errBody).status = code ∧
    (proxyRequest r fun _ => .httpError code reason errBody).body =
      utf8Encode (jsonDumpsPayload (httpErrorPayload code reason errBody)) ∧
    (httpErrorPayload code reason errBody).details =
      String.mk ((utf8DecodeIgnore errBody).take 200) ∧
    hasSub (Nat.repr code).data (httpErrorPayload code reason errBody).error.data = true ∧
    hasSub "\"error\"".data (jsonDumpsPayload (httpErrorPayload code reason errBody)) = true ∧
    hasSub "\"message\"".data (jsonDumpsPayload (httpErrorPayload code reason errBody)) = true ∧
    hasSub "\"details\"".data (jsonDumpsPayload (httpErrorPayload code reason errBody)) = true := by
  obtain ⟨m, hm⟩ := Option.isSome_iff_exists.mp hcl
  have hred : (proxyRequest r fun _ => .httpError code reason errBody) =
      errorResponse code (httpErrorPayload code reason errBody) := by
    unfold proxyRequest
    rw [hm]
  refine ⟨by rw [hred]; rfl, by rw [hred]; rfl, ?_, ?_,
    (jsonDumps_keys _).1, (jsonDumps_keys _).2.1, (jsonDumps_keys _).2.2⟩
  · show (if (utf8DecodeIgnore errBody).isEmpty then "No error details available"
      else String.mk ((utf8DecodeIgnore errBody).take 200)) = _
    rw [if_neg (by simp [hne])]
  · have herr : (httpErrorPayload code reason errBody).error =
        "Backend error: " ++ Nat.repr code ++ " " ++ reason := rfl
    have hdata : ("Backend error: " ++ Nat.repr code ++ " " ++ reason).data =
        "Backend error: ".data ++ (Nat.repr code).data ++ (" ".data ++ reason.data) := by
      simp [List.append_assoc]
    rw [herr, hdata]
    exact hasSub_append _ _ _

/-- Witness for the amended C6 at the spec's own example: backend status
500 with the 17-byte JSON error body naming "boom". -/
theorem c6_http_error_forwarded_witness :
    (proxyRequest reqPost fun _ => .httpError 500 "Internal Server Error" boomBody).status =
      500 ∧
    (httpErrorPayload 500 "Internal Server Error" boomBody).details =
      "\x7b\"detail\":\"boom\"\x7d" ∧
    hasSub "500".data (httpErrorPayload 500 "Internal Server Error" boomBody).error.data =
      true := by
  have h := c6_http_error_forwarded reqPost 500 "Internal Server Error" boomBody
    (by decide) (by decide)
  exact ⟨h.1, h.2.2.1.trans (by decide), h.2.2.2.1⟩

/-- C7: when the transport raises `URLError` (connection refused, DNS
failure, timeout), the proxied request is answered 502 with the
`json.dumps` of an `error`/`message`/`details` object whose `error` is
exactly "Backend connection failed". -/
theorem c7_unreachable_502 (r : Inbound) (msg : String)
    (hcl : (contentLengthVal r).isSome = true) :
    (proxyRequest r fun _ => .connError msg).status = 502 ∧
    (proxyRequest r fun _ => .connError msg).body =
      utf8Encode (jsonDumpsPayload (connErrorPayload msg)) ∧
    (connErrorPayload msg).error = "Backend connection failed" ∧
    hasSub "\"error\"".data (jsonDumpsPayload (connErrorPayload msg)) = true ∧
    hasSub "\"message\"".data (jsonDumpsPayload (connErrorPayload msg)) = true ∧
    hasSub "\"details\"".data (jsonDumpsPayload (connErrorPayload msg)) = true := by
  obtain ⟨m, hm⟩ := Option.isSome_iff_exists.mp hcl
  have hred : (proxyRequest r fun _ => .connError msg) =
      errorResponse 502 (connErrorPayload msg) := by
    unfold proxyRequest
    rw [hm]
  exact ⟨by rw [hred]; rfl, by rw [hred]; rfl, rfl,
    (jsonDumps_keys _).1, (jsonDumps_keys _).2.1, (jsonDumps_keys _).2.2⟩

/-- Witness for C7 at a concrete request and error text. -/
theorem c7_unreachable_502_witness :
    (proxyRequest reqPost fun _ => .connError "Connection refused").status = 502 ∧
    (connErrorPayload "Connection refused").error = "Backend connection failed" := by
  have h := c7_unreachable_502 reqPost "Connection refused" (by decide)
  exact ⟨h.1, h.2.2.1⟩

/-- C10: a `Content-Length` value that `int()` cannot parse raises inside
`proxy_request` before any network activity; the `ValueError` is not a
`URLError`, so the generic handler answers 500 — not any 4xx — with the
`json.dumps` of the "Proxy error" payload. -/
theorem c10_bad_content_length_500 (r : Inbound) (s : String)
    (backend : OutboundReq → BackendOutcome)
    (hf : contentLengthField r = some s) (hbad : pyInt s = none) :
    (proxyRequest r backend).status = 500 ∧
    (proxyRequest r backend).body =
      utf8Encode (jsonDumpsPayload (genericErrorPayload (intErrMsg s))) ∧
    (genericErrorPayload (intErrMsg s)).error = "Proxy error" ∧
    ¬(400 ≤ (proxyRequest r backend).status ∧ (proxyRequest r backend).status < 500) ∧
    hasSub "\"error\"".data (jsonDumpsPayload (genericErrorPayload (intErrMsg s))) = true ∧
    hasSub "\"message\"".data (jsonDumpsPayload (genericErrorPayload (intErrMsg s))) = true ∧
    hasSub "\"details\"".data (jsonDumpsPayload (genericErrorPayload (intErrMsg s))) =
      true := by
  have hcl : contentLengthVal r = none := by
    unfold contentLengthVal
    rw [hf]
    exact hbad
  have hgd : (contentLengthField r).getD "" = s := by rw [hf]; rfl
  have hred : proxyRequest r backend =
      errorResponse 500 (genericErrorPayload (intErrMsg s)) := by
    unfold proxyRequest
    rw [hcl, hgd]
  refine ⟨by rw [hred]; rfl, by rw [hred]; rfl, rfl, ?_,
    (jsonDumps_keys _).1, (jsonDumps_keys _).2.1, (jsonDumps_keys _).2.2⟩
  rw [hred]
  rintro ⟨-, h2⟩
  have hs : (errorResponse 500 (genericErrorPayload (intErrMsg s))).status = 500 := rfl
  rw [hs] at h2
  exact absurd h2 (by decide)

/-- Witness for C10: `Content-Length: abc` draws the 500 "Proxy error"
response even though the backend, had it been reached, was unreachable. -/
theorem c10_bad_content_length_500_witness :
    (proxyRequest reqBadCL fun _ => .connError "refused").status = 500 ∧
    (genericErrorPayload (intErrMsg "abc")).error = "Proxy error" := by
  have h := c10_bad_content_length_500 reqBadCL "abc" (fun _ => .connError "refused")
    (by decide) (by decide)
  exact ⟨h.1, h.2.2.1⟩
